import Mathlib

/-!
Verification of the `medusa-plugin-product-reviews` repository.

This file gives a shallow embedding of the plugin's review data model, the
generated CRUD service it calls (`productReviewService.retrieve / create /
update / delete`), the four workflow steps with their forward ("invoke") and
inverse ("compensate") actions, the storefront listing route, the
average-rating aggregation, and the image-upload validation helpers, and
proves the spec's claims about them.

The review store is modelled as a list of records; each service call either
mutates the store or raises `notFound`, mirroring the generated Medusa CRUD
service the steps resolve from the container.
-/

namespace ProductReviewPlugin

/-- Review moderation status, mirroring the `status` enum
`"pending" | "approved" | "rejected"` of `src/types/product-review.ts`. -/
inductive ReviewStatus where
  | pending
  | approved
  | rejected
deriving DecidableEq

/-- A product review record, mirroring `ProductReviewDTO` in
`src/types/product-review.ts` (timestamps maintained by the persistence
layer are reduced to the `deleted_at` marker, the only one the claims
mention; `deleted_at = none` means the record is not soft-deleted). -/
structure Review where
  id : String
  product_id : String
  customer_id : Option String
  rating : Nat
  title : String
  content : String
  status : ReviewStatus
  rejection_reason : Option String
  helpful_count : Nat
  reported_count : Nat
  deleted_at : Option Nat
deriving DecidableEq

/-- The review store: the state held by the generated CRUD service. -/
abbrev Store := List Review

/-- Errors raised by the generated CRUD service; the steps' only failure
mode in the claims is the NotFound error thrown by `retrieve`. -/
inductive StoreError where
  | notFound
deriving DecidableEq

/-- Models `productReviewService.retrieve(id)`: find the record with the given id;
`none` models the thrown NotFound error. -/
def retrieve (s : Store) (id : String) : Option Review :=
  s.find? (fun r => decide (r.id = id))

/-- The update payload accepted by `productReviewService.update`, mirroring
`UpdateProductReviewDTO` in `src/types/product-review.ts`: every field is
optional, and an absent field leaves the stored value unchanged.  For
`rejection_reason` the outer `Option` is field presence and the inner
`Option` is the nullable column value. -/
structure UpdateReviewDTO where
  title : Option String
  content : Option String
  rating : Option Nat
  status : Option ReviewStatus
  rejection_reason : Option (Option String)
  helpful_count : Option Nat
  reported_count : Option Nat
deriving DecidableEq

/-- The payload with every field absent. -/
def emptyPatch : UpdateReviewDTO :=
  ⟨none, none, none, none, none, none, none⟩

/-- The payload `{ status: st }`, as passed by the approve step's forward
action (`{ status: "approved" }`) and by the approve step's inverse
(`{ status: previousStatus }`). -/
def statusPatch (st : ReviewStatus) : UpdateReviewDTO :=
  { emptyPatch with status := some st }

/-- The payload `{ status: "rejected", rejection_reason: reason }` passed
by the reject step's forward action. -/
def rejectPatch (reason : String) : UpdateReviewDTO :=
  { emptyPatch with
    status := some .rejected
    rejection_reason := some (some reason) }

/-- The payload `{ status: previousStatus, rejection_reason: previousReason }`
passed by the reject step's inverse. -/
def restorePatch (st : ReviewStatus) (reason : Option String) : UpdateReviewDTO :=
  { emptyPatch with
    status := some st
    rejection_reason := some reason }

/-- Apply an update payload to a record: present fields overwrite, absent
fields are kept. -/
def applyPatch (r : Review) (p : UpdateReviewDTO) : Review :=
  { r with
    title := p.title.getD r.title
    content := p.content.getD r.content
    rating := p.rating.getD r.rating
    status := p.status.getD r.status
    rejection_reason := p.rejection_reason.getD r.rejection_reason
    helpful_count := p.helpful_count.getD r.helpful_count
    reported_count := p.reported_count.getD r.reported_count }

/-- Models `productReviewService.update(id, payload)`: patch the record(s) with the
given id, or raise NotFound when no such record exists. -/
def update (s : Store) (id : String) (p : UpdateReviewDTO) :
    Except StoreError Store :=
  if s.any (fun r => decide (r.id = id)) then
    .ok (s.map (fun r => if r.id = id then applyPatch r p else r))
  else
    .error .notFound

/-- Models `productReviewService.create(record)`: insert a record (with its id)
into the store.  When the service itself assigns the id, the model takes
the assigned id as an explicit parameter of the caller. -/
def insertReview (s : Store) (r : Review) : Store :=
  r :: s

/-- Models `productReviewService.delete(id)`: remove the record(s) with the given
id from the store. -/
def removeReview (s : Store) (id : String) : Store :=
  s.filter (fun r => decide (r.id ≠ id))

/-! ## Workflow steps

Each step of `src/workflows/steps/*` is a pair of functions: the invoke
(forward) action and the compensate (inverse) action.  A step function
takes the current store and returns the outcome of the service calls it
performs together with the store after them; a thrown service error aborts
the step and leaves the store exactly as it was at the throw point. -/

/-- Compensation data captured by `approveProductReviewStep`:
`StepResponse({ review, previousStatus: review.status })`. -/
structure ApproveUndo where
  review : Review
  previousStatus : ReviewStatus
deriving DecidableEq

/-- Forward action of `approveProductReviewStep`
(`src/workflows/steps/create-product-review.ts`, `approveProductReviewStep`):
retrieve the review, then update it with `{ status: "approved" }` only —
the payload does not mention `rejection_reason`. -/
def approveProductReviewInvoke (review_id : String) (s : Store) :
    Except StoreError ApproveUndo × Store :=
  match retrieve s review_id with
  | none => (.error .notFound, s)
  | some review =>
    match update s review_id (statusPatch .approved) with
    | .error e => (.error e, s)
    | .ok s' => (.ok ⟨review, review.status⟩, s')

/-- Inverse action of `approveProductReviewStep`: no-op on absent data,
otherwise update the review with `{ status: previousStatus }`. -/
def approveProductReviewCompensate (data : Option ApproveUndo) (s : Store) :
    Except StoreError Unit × Store :=
  match data with
  | none => (.ok (), s)
  | some d =>
    match update s d.review.id (statusPatch d.previousStatus) with
    | .error e => (.error e, s)
    | .ok s' => (.ok (), s')

/-- Compensation data captured by `rejectProductReviewStep`:
`StepResponse({ review, previousStatus, previousReason })`. -/
structure RejectUndo where
  review : Review
  previousStatus : ReviewStatus
  previousReason : Option String
deriving DecidableEq

/-- Forward action of `rejectProductReviewStep`
(`src/workflows/delete-product-review-workflow.ts`, `rejectProductReviewStep`):
retrieve the review, then update it with
`{ status: "rejected", rejection_reason: reason }`. -/
def rejectProductReviewInvoke (review_id : String) (reason : String) (s : Store) :
    Except StoreError RejectUndo × Store :=
  match retrieve s review_id with
  | none => (.error .notFound, s)
  | some review =>
    match update s review_id (rejectPatch reason) with
    | .error e => (.error e, s)
    | .ok s' => (.ok ⟨review, review.status, review.rejection_reason⟩, s')

/-- Inverse action of `rejectProductReviewStep`: restore the prior status
and the prior rejection reason. -/
def rejectProductReviewCompensate (data : Option RejectUndo) (s : Store) :
    Except StoreError Unit × Store :=
  match data with
  | none => (.ok (), s)
  | some d =>
    match update s d.review.id (restorePatch d.previousStatus d.previousReason) with
    | .error e => (.error e, s)
    | .ok s' => (.ok (), s')

/-- Forward action of `deleteProductReviewStep`
(`src/workflows/delete-product-review-workflow.ts`, `deleteProductReviewStep`):
retrieve the review (capturing the full record), then delete it; the
captured record is both the step result and the compensation data. -/
def deleteProductReviewInvoke (review_id : String) (s : Store) :
    Except StoreError Review × Store :=
  match retrieve s review_id with
  | none => (.error .notFound, s)
  | some review => (.ok review, removeReview s review_id)

/-- Inverse action of `deleteProductReviewStep`: no-op on absent data,
otherwise re-create the captured record unchanged. -/
def deleteProductReviewCompensate (review : Option Review) (s : Store) : Store :=
  match review with
  | none => s
  | some r => insertReview s r

/-- The input of `createProductReviewStep`
(`CreateProductReviewStepInput` in `src/workflows/steps/create-product-review.ts`). -/
structure CreateReviewInput where
  product_id : String
  customer_id : Option String
  rating : Nat
  title : String
  content : String
deriving DecidableEq

/-- The record built by `createProductReviewStep`'s service call: the
input fields plus `status: "pending"`, `helpful_count: 0`,
`reported_count: 0`; `newId` is the id the service assigns. -/
def newReview (newId : String) (input : CreateReviewInput) : Review :=
  { id := newId
    product_id := input.product_id
    customer_id := input.customer_id
    rating := input.rating
    title := input.title
    content := input.content
    status := .pending
    rejection_reason := none
    helpful_count := 0
    reported_count := 0
    deleted_at := none }

/-- Forward action of `createProductReviewStep`: create the review and
return `StepResponse(review, review.id)` — the record as the step result
and the assigned id as compensation data. -/
def createProductReviewInvoke (newId : String) (input : CreateReviewInput) (s : Store) :
    (Review × String) × Store :=
  ((newReview newId input, (newReview newId input).id),
    insertReview s (newReview newId input))

/-- Inverse action of `createProductReviewStep`: no-op on absent data,
otherwise delete by the captured id. -/
def createProductReviewCompensate (reviewId : Option String) (s : Store) : Store :=
  match reviewId with
  | none => s
  | some rid => removeReview s rid

/-! ## Storefront listing and aggregation -/

/-- The host framework's `query.graph` on the `review` entity: return the
records matching the caller's filters.  The framework excludes soft-deleted
rows (non-null `deleted_at`) from query results by default, which the model
bakes into the query itself. -/
def queryGraphReviews (s : Store) (flt : Review → Bool) : List Review :=
  s.filter (fun r => flt r && decide (r.deleted_at = none))

/-- The storefront listing `GET /store/products/{id}/reviews`
(`src/api/store/products/[id]/reviews/route.ts`): query the `review`
entity with filters `product_id = id` and `status = "approved"`. -/
def storeListProductReviews (s : Store) (product_id : String) : List Review :=
  queryGraphReviews s
    (fun r => decide (r.product_id = product_id ∧ r.status = .approved))

/-- The reviews that enter the average-rating aggregation for a product:
matching `product_id`, `status = approved`, and null `deleted_at`. -/
def approvedVisibleReviews (s : Store) (product_id : String) : List Review :=
  s.filter (fun r =>
    decide (r.product_id = product_id ∧ r.status = .approved ∧ r.deleted_at = none))

/-- Modelled from the spec: `getAverageRating` is implemented by the module
service in `src/modules/product-review/service`, which is not present under
`src/` — only its caller in the store route is.  The spec defines it as the
arithmetic mean of `rating` over all reviews where `product_id` matches,
`status = approved` and `deleted_at` is null, returning 0 when that set is
empty. -/
def getAverageRating (s : Store) (product_id : String) : ℚ :=
  let rs := approvedVisibleReviews s product_id
  if rs.length = 0 then 0
  else ((rs.map (fun r => (r.rating : ℚ))).sum) / (rs.length : ℚ)

/-! ## Image upload validation
(`src/api/routes/product-review-image-upload-routes.ts`) -/

/-- An uploaded multipart file as the route sees it: `originalname`,
`mimetype` and `size`; an absent MIME type is modelled as `""` (the falsy
string). -/
structure UploadFile where
  originalname : String
  mimetype : String
  size : Nat
deriving DecidableEq

/-- The source's `ALLOWED_MIME_TYPES`. -/
def allowedMimeTypes : List String :=
  ["image/jpeg", "image/jpg", "image/png", "image/gif", "image/webp"]

/-- The source's `ALLOWED_EXTENSIONS`. -/
def allowedExtensions : List String :=
  [".jpg", ".jpeg", ".png", ".gif", ".webp"]

/-- The source's `MAX_FILE_SIZE = 5 * 1024 * 1024` (5MB). -/
def maxFileSize : Nat := 5 * 1024 * 1024

/-- The source's `MAX_FILES = 5`. -/
def maxFiles : Nat := 5

/-- Split a character list at every occurrence of the separator; the
separators themselves are dropped and empty segments are kept. -/
def splitOnChar (sep : Char) : List Char → List (List Char)
  | [] => [[]]
  | c :: cs =>
    if c = sep then [] :: splitOnChar sep cs
    else
      match splitOnChar sep cs with
      | [] => [[c]]
      | h :: t => (c :: h) :: t

/-- ASCII lowercasing of one character, as `.toLowerCase()` acts on the
characters relevant to file extensions. -/
def lowerChar (c : Char) : Char :=
  if 65 ≤ c.toNat ∧ c.toNat ≤ 90 then Char.ofNat (c.toNat + 32) else c

/-- ASCII lowercasing of a string (`.toLowerCase()` on extension text). -/
def toLowerAscii (s : String) : String :=
  String.mk (s.toList.map lowerChar)

/-- Node's `path.basename` (POSIX): the part of the path after the last
`/` separator. -/
def pathBasename (p : String) : String :=
  String.mk ((splitOnChar '/' p.toList).getLastD p.toList)

/-- Node's `path.extname` (POSIX): the suffix of the base name from its
last `.` to the end; empty when the base name has no dot or when its only
dot is the leading character (dotfiles have no extension). -/
def pathExtname (p : String) : String :=
  let cs := (pathBasename p).toList
  let ext := cs.reverse.takeWhile (fun c => decide (c ≠ '.'))
  if ext.length = cs.length then ""
  else if cs.length - ext.length - 1 = 0 then ""
  else String.mk ('.' :: ext.reverse)

/-- The source's `isAllowedImageFile` (lines 27–46): reject when the lower-cased
extension is not allowed; then reject when the MIME type is present
(truthy) but not allowed; then reject when the size exceeds
`MAX_FILE_SIZE`; accept otherwise. -/
def isAllowedImageFile (f : UploadFile) : Bool :=
  let normalizedExt := toLowerAscii (pathExtname f.originalname)
  if ¬ (allowedExtensions.contains normalizedExt = true) then false
  else if f.mimetype ≠ "" ∧ ¬ (allowedMimeTypes.contains f.mimetype = true) then false
  else if f.size > maxFileSize then false
  else true

/-- The multer `fileFilter` of the upload route (lines 63–73): a file
passes only when its MIME type is present and allowed and its lower-cased
extension is allowed. -/
def multerFileFilter (f : UploadFile) : Bool :=
  (decide (f.mimetype ≠ "") && allowedMimeTypes.contains f.mimetype)
    && allowedExtensions.contains (toLowerAscii (pathExtname f.originalname))

/-- A file is accepted by the upload endpoint when it passes both in-repo
checks on its path: the multer `fileFilter` installed on the route and the
handler's secondary validation `isAllowedImageFile`. -/
def endpointAcceptsFile (f : UploadFile) : Bool :=
  multerFileFilter f && isAllowedImageFile f

/-- The source's `sanitizeFilename` (lines 49–54): take `path.basename`, then apply
`.replace(/[\0\.\.\\/\\]/g, "")` — a regex character class containing the
NUL character, the dot, the backslash and the slash, so every occurrence
of any of those four characters is removed. -/
def sanitizeFilename (filename : String) : String :=
  String.mk ((pathBasename filename).toList.filter
    (fun c => decide (¬ (c = Char.ofNat 0 ∨ c = '.' ∨ c = '\\' ∨ c = '/'))))

/-- The sanitization the spec describes: the base name with only the
path-traversal characters — null bytes, slashes and backslashes — removed
(stated for comparison with the source's `sanitizeFilename`). -/
def sanitizeFilenameSpec (filename : String) : String :=
  String.mk ((pathBasename filename).toList.filter
    (fun c => decide (¬ (c = Char.ofNat 0 ∨ c = '\\' ∨ c = '/'))))

/-- The response of the upload handler, reduced to what the claims
mention: a 200 response carries the list of uploaded file names and an
optional `warnings.invalidFiles` list; a 400 response carries only the
invalid file names (no `uploads` key exists on that branch). -/
inductive UploadResponse where
  | success (uploads : List String) (invalidWarnings : Option (List String))
  | badRequest (invalidFiles : List String)
deriving DecidableEq

/-- The `uploadImage` handler (lines 85–152) on the files delivered by
multer: partition into valid and invalid by `isAllowedImageFile`; when
there is at least one invalid file and no valid one, respond 400 with the
invalid names; otherwise upload every valid file under its sanitized name
and respond 200, adding a `warnings.invalidFiles` list when any file was
invalid. -/
def uploadImage (files : List UploadFile) : UploadResponse :=
  let validFiles := files.filter isAllowedImageFile
  let invalidFiles := (files.filter (fun f => ! isAllowedImageFile f)).map
    (fun f => f.originalname)
  if invalidFiles.length > 0 ∧ validFiles.length = 0 then
    .badRequest invalidFiles
  else
    .success (validFiles.map (fun f => sanitizeFilename f.originalname))
      (if invalidFiles.length > 0 then some invalidFiles else none)

/-- Errors with which the route's multer middleware aborts a request
before the handler runs. -/
inductive MulterError where
  | limitFileCount
  | invalidFileType
  | limitFileSize
deriving DecidableEq

/-- Models the route's multer middleware
`upload.array("files", MAX_FILES)` with the configured `fileFilter` and
`limits` (source lines 57–74 and 81): a request with more than
`MAX_FILES` files, with any file rejected by the `fileFilter` (which
calls `callback(new Error(...))`, aborting the whole request), or with
any file exceeding `limits.fileSize` is aborted with a multer error and
never reaches the handler; otherwise every file is delivered to the
handler unchanged. -/
def multerMiddleware (files : List UploadFile) :
    Except MulterError (List UploadFile) :=
  if maxFiles < files.length then .error .limitFileCount
  else if ¬ files.all multerFileFilter then .error .invalidFileType
  else if ¬ files.all (fun f => decide (f.size ≤ maxFileSize)) then
    .error .limitFileSize
  else .ok files

/-- The request-level response of the upload endpoint: the handler's 200
and 400 responses, or the error with which the multer middleware aborted
the request before the handler ran. -/
inductive EndpointResponse where
  | ok200 (uploads : List String) (invalidWarnings : Option (List String))
  | badRequest400 (invalidFiles : List String)
  | multerError (e : MulterError)
deriving DecidableEq

/-- The upload endpoint `POST /store/product-reviews/upload` as a whole:
the multer middleware runs first and aborts on any invalid file; only a
request it fully accepts reaches the `uploadImage` handler. -/
def uploadEndpoint (files : List UploadFile) : EndpointResponse :=
  match multerMiddleware files with
  | .error e => .multerError e
  | .ok fs =>
    match uploadImage fs with
    | .success uploads warn => .ok200 uploads warn
    | .badRequest invalid => .badRequest400 invalid

/-- Whether a response is a 200 success. -/
def is200 : EndpointResponse → Bool
  | .ok200 _ _ => true
  | _ => false

/-- Whether a response is the handler's 400. -/
def is400 : EndpointResponse → Bool
  | .badRequest400 _ => true
  | _ => false

/-! ## Sample data used by witnesses and counterexamples -/

/-- A rejected review with a non-null rejection reason. -/
def sampleRejected : Review :=
  { id := "r1"
    product_id := "p1"
    customer_id := none
    rating := 2
    title := "t"
    content := "c"
    status := .rejected
    rejection_reason := some "spam"
    helpful_count := 0
    reported_count := 0
    deleted_at := none }

/-- An approved review with the given id, product and rating. -/
def mkApproved (id product_id : String) (rating : Nat) : Review :=
  { id := id
    product_id := product_id
    customer_id := none
    rating := rating
    title := ""
    content := ""
    status := .approved
    rejection_reason := none
    helpful_count := 0
    reported_count := 0
    deleted_at := none }

/-- Three approved reviews of product `p` with ratings 5, 3 and 4. -/
def sampleStore3 : Store :=
  [mkApproved "1" "p" 5, mkApproved "2" "p" 3, mkApproved "3" "p" 4]

/-- The same store after the rating-3 review has been rejected. -/
def sampleStore3R : Store :=
  [mkApproved "1" "p" 5,
   { mkApproved "2" "p" 3 with status := .rejected, rejection_reason := some "low" },
   mkApproved "3" "p" 4]

/-- A valid JPEG upload of the given name. -/
def validJpg (n : String) : UploadFile := ⟨n, "image/jpeg", 1000⟩

/-- An invalid text-file upload of the given name. -/
def invalidTxt (n : String) : UploadFile := ⟨n, "text/plain", 1000⟩

/-! ## Helper lemmas about the store model -/

theorem applyPatch_id (x : Review) (p : UpdateReviewDTO) :
    (applyPatch x p).id = x.id := rfl

theorem retrieve_cons_pos {a : Review} {id : String} (t : Store) (h : a.id = id) :
    retrieve (a :: t) id = some a :=
  List.find?_cons_of_pos t (by simp [h])

theorem retrieve_cons_neg {a : Review} {id : String} (t : Store) (h : ¬ a.id = id) :
    retrieve (a :: t) id = retrieve t id :=
  List.find?_cons_of_neg t (by simp [h])

theorem retrieve_mem {s : Store} {id : String} {r : Review}
    (h : retrieve s id = some r) : r ∈ s :=
  List.mem_of_find?_eq_some h

theorem retrieve_id {s : Store} {id : String} {r : Review}
    (h : retrieve s id = some r) : r.id = id := by
  have := List.find?_some h
  simpa using this

theorem any_id_of_retrieve {s : Store} {id : String} {r : Review}
    (h : retrieve s id = some r) :
    s.any (fun x => decide (x.id = id)) = true :=
  List.any_eq_true.mpr ⟨r, retrieve_mem h, by simp [retrieve_id h]⟩

theorem update_of_retrieve {s : Store} {id : String} {r : Review}
    (p : UpdateReviewDTO) (h : retrieve s id = some r) :
    update s id p = .ok (s.map (fun x => if x.id = id then applyPatch x p else x)) := by
  unfold update
  rw [if_pos (any_id_of_retrieve h)]

theorem retrieve_map_patch {s : Store} {id : String} {r : Review}
    (g : Review → Review) (hg : ∀ x, (g x).id = x.id)
    (h : retrieve s id = some r) :
    retrieve (s.map (fun x => if x.id = id then g x else x)) id = some (g r) := by
  induction s with
  | nil => simp [retrieve] at h
  | cons a t ih =>
    by_cases ha : a.id = id
    · have hra : r = a := by
        rw [retrieve_cons_pos t ha] at h
        exact (Option.some.inj h).symm
      subst hra
      simp only [List.map_cons, if_pos ha]
      exact retrieve_cons_pos _ (by rw [hg, ha])
    · rw [retrieve_cons_neg t ha] at h
      simp only [List.map_cons, if_neg ha]
      rw [retrieve_cons_neg _ ha]
      exact ih h

theorem retrieve_removeReview (s : Store) (id : String) :
    retrieve (removeReview s id) id = none := by
  unfold retrieve removeReview
  apply List.find?_eq_none.mpr
  intro x hx
  have hmem := (List.mem_filter.mp hx).2
  simpa using hmem

theorem removeReview_of_retrieve_none {s : Store} {id : String}
    (h : retrieve s id = none) : removeReview s id = s := by
  unfold removeReview
  apply List.filter_eq_self.mpr
  intro x hx
  have := List.find?_eq_none.mp h x hx
  simpa using this

/-! ## Claim theorems -/

/-- C1 (counterexample): approving the rejected review `sampleRejected`
succeeds, but the review afterwards still carries
`rejection_reason = some "spam"` — the forward action updates only
`status`, so the claim that a successful approve leaves a null
`rejection_reason` is false on this input. -/
theorem approve_keeps_rejection_reason_cex :
    approveProductReviewInvoke "r1" [sampleRejected]
      = (.ok ⟨sampleRejected, .rejected⟩,
         [{ sampleRejected with status := .approved }])
    ∧ ({ sampleRejected with status := ReviewStatus.approved }).rejection_reason
        = some "spam"
    ∧ some "spam" ≠ (none : Option String) :=
  ⟨rfl, rfl, by decide⟩

/-- C1 (amended): for every existing review, the approve step's forward
action sets `status` to `approved` and leaves `rejection_reason`
unchanged (it does not clear it), and the step's inverse restores the
prior status — and with it the full prior record, since nothing else was
modified. -/
theorem approveProductReviewStep_spec (s : Store) (id : String) (r : Review)
    (h : retrieve s id = some r) :
    ∃ s',
      approveProductReviewInvoke id s = (.ok ⟨r, r.status⟩, s')
      ∧ retrieve s' id = some { r with status := .approved }
      ∧ ({ r with status := ReviewStatus.approved }).rejection_reason
          = r.rejection_reason
      ∧ ∃ s'',
          approveProductReviewCompensate (some ⟨r, r.status⟩) s' = (.ok (), s'')
          ∧ retrieve s'' id = some r := by
  have hrid : r.id = id := retrieve_id h
  refine ⟨s.map (fun x => if x.id = id
      then applyPatch x (statusPatch .approved) else x), ?_, ?_, rfl, ?_⟩
  · unfold approveProductReviewInvoke
    rw [h, update_of_retrieve _ h]
  · exact retrieve_map_patch _ (fun x => rfl) h
  · have hret1 : retrieve (s.map (fun x => if x.id = id
        then applyPatch x (statusPatch .approved) else x)) id
        = some (applyPatch r (statusPatch .approved)) :=
      retrieve_map_patch _ (fun x => rfl) h
    refine ⟨(s.map (fun x => if x.id = id
        then applyPatch x (statusPatch .approved) else x)).map
          (fun x => if x.id = id
            then applyPatch x (statusPatch r.status) else x),
      ?_, ?_⟩
    · have hu2 : update (s.map (fun x => if x.id = id
          then applyPatch x (statusPatch .approved) else x)) r.id
          (statusPatch r.status)
          = .ok ((s.map (fun x => if x.id = id
              then applyPatch x (statusPatch .approved) else x)).map
            (fun x => if x.id = id
              then applyPatch x (statusPatch r.status) else x)) := by
        rw [hrid]
        exact update_of_retrieve _ hret1
      simp only [approveProductReviewCompensate, hu2]
    · exact @retrieve_map_patch _ _ (applyPatch r (statusPatch .approved))
        (fun x => applyPatch x (statusPatch r.status)) (fun x => rfl) hret1

/-- C1 (witness): the amended theorem applied to the one-element store
holding `sampleRejected`. -/
theorem approveProductReviewStep_spec_witness :
    retrieve [sampleRejected] "r1" = some sampleRejected
    ∧ ∃ s',
        approveProductReviewInvoke "r1" [sampleRejected]
          = (.ok ⟨sampleRejected, sampleRejected.status⟩, s')
        ∧ retrieve s' "r1" = some { sampleRejected with status := .approved }
        ∧ ({ sampleRejected with status := ReviewStatus.approved }).rejection_reason
            = sampleRejected.rejection_reason
        ∧ ∃ s'',
            approveProductReviewCompensate
              (some ⟨sampleRejected, sampleRejected.status⟩) s' = (.ok (), s'')
            ∧ retrieve s'' "r1" = some sampleRejected :=
  ⟨rfl, approveProductReviewStep_spec [sampleRejected] "r1" sampleRejected rfl⟩

/-- C2: for every existing review, the delete step's forward action
captures the full prior record as its compensation data and removes the
record — retrieving it afterwards fails — and the step's inverse
re-inserts the captured record unchanged, after which retrieval by the
original id returns a record equal to the one deleted (same id, same
status, all fields). -/
theorem deleteProductReviewStep_roundtrip (s : Store) (id : String) (r : Review)
    (h : retrieve s id = some r) :
    deleteProductReviewInvoke id s = (.ok r, removeReview s id)
    ∧ retrieve (removeReview s id) id = none
    ∧ deleteProductReviewCompensate (some r) (removeReview s id)
        = insertReview (removeReview s id) r
    ∧ retrieve (deleteProductReviewCompensate (some r) (removeReview s id)) id
        = some r := by
  refine ⟨?_, retrieve_removeReview s id, rfl, ?_⟩
  · unfold deleteProductReviewInvoke
    rw [h]
  · show retrieve (insertReview (removeReview s id) r) id = some r
    exact retrieve_cons_pos _ (retrieve_id h)

/-- C2 (witness): the delete round-trip on the one-element store holding
`sampleRejected`. -/
theorem deleteProductReviewStep_roundtrip_witness :
    retrieve [sampleRejected] "r1" = some sampleRejected
    ∧ (deleteProductReviewInvoke "r1" [sampleRejected]
          = (.ok sampleRejected, removeReview [sampleRejected] "r1")
        ∧ retrieve (removeReview [sampleRejected] "r1") "r1" = none
        ∧ deleteProductReviewCompensate (some sampleRejected)
              (removeReview [sampleRejected] "r1")
            = insertReview (removeReview [sampleRejected] "r1") sampleRejected
        ∧ retrieve (deleteProductReviewCompensate (some sampleRejected)
              (removeReview [sampleRejected] "r1")) "r1" = some sampleRejected) :=
  ⟨rfl, deleteProductReviewStep_roundtrip [sampleRejected] "r1" sampleRejected rfl⟩

/-- C3: for every existing review, the reject step's forward action sets
`status` to `rejected` and `rejection_reason` to the given reason while
capturing the prior values of both fields, and running the step's inverse
afterwards restores the review to exactly its prior record — in
particular its `status` and `rejection_reason` regain the values they had
before the forward action ran. -/
theorem rejectProductReviewStep_roundtrip (s : Store) (id reason : String)
    (r : Review) (h : retrieve s id = some r) :
    ∃ s',
      rejectProductReviewInvoke id reason s
        = (.ok ⟨r, r.status, r.rejection_reason⟩, s')
      ∧ retrieve s' id
          = some { r with status := .rejected, rejection_reason := some reason }
      ∧ ∃ s'',
          rejectProductReviewCompensate
            (some ⟨r, r.status, r.rejection_reason⟩) s' = (.ok (), s'')
          ∧ retrieve s'' id = some r := by
  have hrid : r.id = id := retrieve_id h
  refine ⟨s.map (fun x => if x.id = id
      then applyPatch x (rejectPatch reason) else x), ?_, ?_, ?_⟩
  · unfold rejectProductReviewInvoke
    rw [h, update_of_retrieve _ h]
  · exact retrieve_map_patch _ (fun x => rfl) h
  · have hret1 : retrieve (s.map (fun x => if x.id = id
        then applyPatch x (rejectPatch reason) else x)) id
        = some (applyPatch r (rejectPatch reason)) :=
      retrieve_map_patch _ (fun x => rfl) h
    refine ⟨(s.map (fun x => if x.id = id
        then applyPatch x (rejectPatch reason) else x)).map
          (fun x => if x.id = id
            then applyPatch x (restorePatch r.status r.rejection_reason) else x),
      ?_, ?_⟩
    · have hu2 : update (s.map (fun x => if x.id = id
          then applyPatch x (rejectPatch reason) else x)) r.id
          (restorePatch r.status r.rejection_reason)
          = .ok ((s.map (fun x => if x.id = id
              then applyPatch x (rejectPatch reason) else x)).map
            (fun x => if x.id = id
              then applyPatch x (restorePatch r.status r.rejection_reason) else x)) := by
        rw [hrid]
        exact update_of_retrieve _ hret1
      simp only [rejectProductReviewCompensate, hu2]
    · exact @retrieve_map_patch _ _ (applyPatch r (rejectPatch reason))
        (fun x => applyPatch x (restorePatch r.status r.rejection_reason))
        (fun x => rfl) hret1

/-- C3 (witness): the reject round-trip on a store holding one approved
review. -/
theorem rejectProductReviewStep_roundtrip_witness :
    retrieve [mkApproved "1" "p" 5] "1" = some (mkApproved "1" "p" 5)
    ∧ ∃ s',
        rejectProductReviewInvoke "1" "bad" [mkApproved "1" "p" 5]
          = (.ok ⟨mkApproved "1" "p" 5, (mkApproved "1" "p" 5).status,
              (mkApproved "1" "p" 5).rejection_reason⟩, s')
        ∧ retrieve s' "1"
            = some { mkApproved "1" "p" 5 with
                status := .rejected
                rejection_reason := some "bad" }
        ∧ ∃ s'',
            rejectProductReviewCompensate
              (some ⟨mkApproved "1" "p" 5, (mkApproved "1" "p" 5).status,
                (mkApproved "1" "p" 5).rejection_reason⟩) s' = (.ok (), s'')
            ∧ retrieve s'' "1" = some (mkApproved "1" "p" 5) :=
  ⟨rfl, rejectProductReviewStep_roundtrip [mkApproved "1" "p" 5] "1" "bad"
    (mkApproved "1" "p" 5) rfl⟩

/-- C4: when no review has the given id, each moderation step — approve,
reject (for every reason) and delete — fails with the NotFound error and
returns the store unchanged. -/
theorem moderationSteps_notFound_no_mutation (s : Store) (id : String)
    (h : retrieve s id = none) :
    approveProductReviewInvoke id s = (.error .notFound, s)
    ∧ (∀ reason, rejectProductReviewInvoke id reason s = (.error .notFound, s))
    ∧ deleteProductReviewInvoke id s = (.error .notFound, s) := by
  refine ⟨?_, fun reason => ?_, ?_⟩
  · unfold approveProductReviewInvoke
    rw [h]
  · unfold rejectProductReviewInvoke
    rw [h]
  · unfold deleteProductReviewInvoke
    rw [h]

/-- C4 (witness): the moderation steps fail without mutation on the empty
store. -/
theorem moderationSteps_notFound_no_mutation_witness :
    retrieve [] "missing" = none
    ∧ (approveProductReviewInvoke "missing" [] = (.error .notFound, [])
        ∧ (∀ reason, rejectProductReviewInvoke "missing" reason []
              = (.error .notFound, []))
        ∧ deleteProductReviewInvoke "missing" [] = (.error .notFound, [])) :=
  ⟨rfl, moderationSteps_notFound_no_mutation [] "missing" rfl⟩

/-- C7: the create step produces a review whose `status` is `pending` and
whose `helpful_count` and `reported_count` are 0, hands the assigned id to
its compensation, and the step's inverse removes exactly the review with
that id — on a store where the id was fresh, it restores the store
exactly. -/
theorem createProductReviewStep_spec (newId : String)
    (input : CreateReviewInput) (s : Store)
    (h : retrieve s newId = none) :
    createProductReviewInvoke newId input s
        = ((newReview newId input, newId), insertReview s (newReview newId input))
    ∧ (newReview newId input).status = .pending
    ∧ (newReview newId input).helpful_count = 0
    ∧ (newReview newId input).reported_count = 0
    ∧ createProductReviewCompensate (some newId)
        (insertReview s (newReview newId input)) = s := by
  refine ⟨rfl, rfl, rfl, rfl, ?_⟩
  show removeReview (newReview newId input :: s) newId = s
  unfold removeReview
  rw [List.filter_cons]
  have hhead : (decide ((newReview newId input).id ≠ newId)) = false := by
    simp [newReview]
  rw [hhead]
  simp only [Bool.false_eq_true, if_false]
  exact removeReview_of_retrieve_none h

/-- C7 (witness): creating a review in the empty store and compensating
brings the store back to empty. -/
theorem createProductReviewStep_spec_witness :
    retrieve [] "n1" = none
    ∧ (createProductReviewInvoke "n1" ⟨"p", none, 5, "t", "c"⟩ []
          = ((newReview "n1" ⟨"p", none, 5, "t", "c"⟩, "n1"),
             insertReview [] (newReview "n1" ⟨"p", none, 5, "t", "c"⟩))
        ∧ (newReview "n1" ⟨"p", none, 5, "t", "c"⟩).status = .pending
        ∧ (newReview "n1" ⟨"p", none, 5, "t", "c"⟩).helpful_count = 0
        ∧ (newReview "n1" ⟨"p", none, 5, "t", "c"⟩).reported_count = 0
        ∧ createProductReviewCompensate (some "n1")
            (insertReview [] (newReview "n1" ⟨"p", none, 5, "t", "c"⟩)) = []) :=
  ⟨rfl, createProductReviewStep_spec "n1" ⟨"p", none, 5, "t", "c"⟩ [] rfl⟩

/-- C5: the average rating of a product is computed over exactly the
reviews whose `product_id` matches, whose `status` is `approved` and
whose `deleted_at` is null; on an empty set it is the defined no-reviews
value 0, and on a non-empty set it is the arithmetic mean — the value
times the number of contributing reviews equals the sum of their ratings. -/
theorem getAverageRating_spec (s : Store) (pid : String) :
    (∀ r, r ∈ approvedVisibleReviews s pid ↔
        r ∈ s ∧ r.product_id = pid ∧ r.status = .approved ∧ r.deleted_at = none)
    ∧ (approvedVisibleReviews s pid = [] → getAverageRating s pid = 0)
    ∧ (approvedVisibleReviews s pid ≠ [] →
        getAverageRating s pid * ((approvedVisibleReviews s pid).length : ℚ)
          = ((approvedVisibleReviews s pid).map (fun r => (r.rating : ℚ))).sum) := by
  refine ⟨?_, ?_, ?_⟩
  · intro r
    simp [approvedVisibleReviews, List.mem_filter]
  · intro hempty
    unfold getAverageRating
    rw [hempty]
    simp
  · intro hne
    have hlen : (approvedVisibleReviews s pid).length ≠ 0 := by
      simpa [List.length_eq_zero] using hne
    have hlenQ : ((approvedVisibleReviews s pid).length : ℚ) ≠ 0 :=
      Nat.cast_ne_zero.mpr hlen
    unfold getAverageRating
    rw [if_neg hlen]
    exact div_mul_cancel₀ _ hlenQ

/-- C5 (witness): on the store with approved ratings 5, 3 and 4 for
product `p`, the contributing set is non-empty and the mean equation
holds. -/
theorem getAverageRating_spec_witness :
    approvedVisibleReviews sampleStore3 "p" ≠ []
    ∧ getAverageRating sampleStore3 "p"
          * ((approvedVisibleReviews sampleStore3 "p").length : ℚ)
        = ((approvedVisibleReviews sampleStore3 "p").map
            (fun r => (r.rating : ℚ))).sum :=
  ⟨by decide, (getAverageRating_spec sampleStore3 "p").2.2 (by decide)⟩

/-- The spec's worked example: approved ratings 5, 3 and 4 average to 4. -/
theorem sampleStore3_average : getAverageRating sampleStore3 "p" = 4 := by
  have h : approvedVisibleReviews sampleStore3 "p" = sampleStore3 := by decide
  simp only [getAverageRating, h]
  norm_num [sampleStore3, mkApproved]

/-- The spec's worked example continued: after rejecting the rating-3
review, the average over the remaining approved reviews is 4.5. -/
theorem sampleStore3R_average : getAverageRating sampleStore3R "p" = 9 / 2 := by
  have h : approvedVisibleReviews sampleStore3R "p"
      = [mkApproved "1" "p" 5, mkApproved "3" "p" 4] := by decide
  simp only [getAverageRating, h]
  norm_num [mkApproved]

/-- C6: a review appears in the storefront listing
`GET /store/products/{id}/reviews` exactly when it belongs to the store,
its `product_id` matches, its `status` is `approved` and it is not
soft-deleted — pending, rejected and soft-deleted reviews never appear. -/
theorem storeListProductReviews_spec (s : Store) (pid : String) (r : Review) :
    r ∈ storeListProductReviews s pid ↔
      r ∈ s ∧ r.product_id = pid ∧ r.status = .approved ∧ r.deleted_at = none := by
  simp [storeListProductReviews, queryGraphReviews, List.mem_filter, and_assoc]

/-! ## Upload validation lemmas -/

theorem contains_iff_mem (l : List String) (a : String) :
    l.contains a = true ↔ a ∈ l := by
  simp [List.contains]

/-- Characterization of the multer `fileFilter`: it passes exactly the
files with a present, allowed MIME type and an allowed lower-cased
extension. -/
theorem multerFileFilter_iff (f : UploadFile) :
    multerFileFilter f = true ↔
      f.mimetype ≠ "" ∧ f.mimetype ∈ allowedMimeTypes
        ∧ toLowerAscii (pathExtname f.originalname) ∈ allowedExtensions := by
  unfold multerFileFilter
  simp [contains_iff_mem, and_assoc]

/-- Characterization of the handler's `isAllowedImageFile`: allowed
extension, MIME type absent or allowed, and size within the limit. -/
theorem isAllowedImageFile_iff (f : UploadFile) :
    isAllowedImageFile f = true ↔
      toLowerAscii (pathExtname f.originalname) ∈ allowedExtensions
        ∧ (f.mimetype = "" ∨ f.mimetype ∈ allowedMimeTypes)
        ∧ f.size ≤ maxFileSize := by
  unfold isAllowedImageFile
  simp only [contains_iff_mem]
  split_ifs with h1 h2 h3
  · refine ⟨fun hf => absurd hf (by decide), fun hr => ?_⟩
    rcases hr.2.1 with he | hm
    · exact absurd he h2.1
    · exact absurd hm h2.2
  · exact ⟨fun hf => absurd hf (by decide), fun hr => absurd hr.2.2 (by omega)⟩
  · refine ⟨fun _ => ⟨h1, ?_, by omega⟩, fun _ => rfl⟩
    by_cases he : f.mimetype = ""
    · exact Or.inl he
    · exact Or.inr (not_not.mp (fun hnm => h2 ⟨he, hnm⟩))
  · exact ⟨fun hf => absurd hf (by decide), fun hr => absurd hr.1 h1⟩

/-- The endpoint's combined per-file acceptance: both in-repo checks
together demand an allowed extension, an allowed (present) MIME type, and
a size within the limit. -/
theorem endpointAcceptsFile_iff (f : UploadFile) :
    endpointAcceptsFile f = true ↔
      (toLowerAscii (pathExtname f.originalname) ∈ allowedExtensions
        ∧ f.mimetype ∈ allowedMimeTypes
        ∧ f.size ≤ maxFileSize) := by
  have hmm : ("" : String) ∉ allowedMimeTypes := by decide
  unfold endpointAcceptsFile
  simp only [Bool.and_eq_true, multerFileFilter_iff, isAllowedImageFile_iff]
  constructor
  · rintro ⟨⟨hne, hm, hext⟩, _, _, hsize⟩
    exact ⟨hext, hm, hsize⟩
  · rintro ⟨hext, hm, hsize⟩
    have hne : f.mimetype ≠ "" := fun he => hmm (he ▸ hm)
    exact ⟨⟨hne, hm, hext⟩, hext, Or.inr hm, hsize⟩

/-- C8: the upload endpoint accepts a file exactly when its lower-cased
extension is one of the allowed image extensions, its MIME type is one of
the allowed image MIME types, and its size is at most 5MB; and since
multer delivers at most `MAX_FILES` files per request, at most 5 files
are accepted per request. -/
theorem uploadEndpoint_accept_spec (f : UploadFile) (files : List UploadFile)
    (hn : files.length ≤ maxFiles) :
    (endpointAcceptsFile f = true ↔
      (toLowerAscii (pathExtname f.originalname) ∈ allowedExtensions
        ∧ f.mimetype ∈ allowedMimeTypes
        ∧ f.size ≤ maxFileSize))
    ∧ (files.filter endpointAcceptsFile).length ≤ maxFiles :=
  ⟨endpointAcceptsFile_iff f, le_trans (List.length_filter_le _ _) hn⟩

/-- C8 (witness): the acceptance characterization at a concrete valid
JPEG and a one-file request. -/
theorem uploadEndpoint_accept_spec_witness :
    ([validJpg "a.jpg"] : List UploadFile).length ≤ maxFiles
    ∧ ((endpointAcceptsFile (validJpg "a.jpg") = true ↔
        (toLowerAscii (pathExtname (validJpg "a.jpg").originalname)
            ∈ allowedExtensions
          ∧ (validJpg "a.jpg").mimetype ∈ allowedMimeTypes
          ∧ (validJpg "a.jpg").size ≤ maxFileSize))
      ∧ (([validJpg "a.jpg"] : List UploadFile).filter
          endpointAcceptsFile).length ≤ maxFiles) :=
  ⟨by decide, uploadEndpoint_accept_spec (validJpg "a.jpg") [validJpg "a.jpg"]
    (by decide)⟩

/-- C9 (counterexample): at the endpoint, a request holding one valid
JPEG and one invalid text file is aborted by the multer `fileFilter`
with an error — not answered 200 with uploads and warnings as the claim
states — and a request holding only the invalid file is likewise aborted
with the multer error, not answered with the handler's 400. -/
theorem uploadEndpoint_mixed_request_cex :
    isAllowedImageFile (validJpg "a.jpg") = true
    ∧ isAllowedImageFile (invalidTxt "x.txt") = false
    ∧ uploadEndpoint [validJpg "a.jpg", invalidTxt "x.txt"]
        = .multerError .invalidFileType
    ∧ is200 (uploadEndpoint [validJpg "a.jpg", invalidTxt "x.txt"]) = false
    ∧ uploadEndpoint [invalidTxt "x.txt"] = .multerError .invalidFileType
    ∧ is400 (uploadEndpoint [invalidTxt "x.txt"]) = false :=
  ⟨by decide, by decide, by decide, by decide, by decide, by decide⟩

/-- C9 (amended): a request whose files all pass the multer `fileFilter`
and the size limit is answered 200 with one uploads entry per file and
no warnings; a request containing any file that fails the extension/MIME
filter or the size limit is aborted with a multer error before the
handler runs; and every file list the middleware does deliver consists
only of files passing `isAllowedImageFile`, so the handler's
`warnings.invalidFiles` and all-invalid 400 branches are unreachable at
this endpoint. -/
theorem uploadEndpoint_response_spec (files : List UploadFile)
    (hn : files.length ≤ maxFiles) :
    ((∀ f ∈ files, multerFileFilter f = true ∧ f.size ≤ maxFileSize) →
      uploadEndpoint files
        = .ok200 (files.map (fun f => sanitizeFilename f.originalname)) none)
    ∧ ((∃ f ∈ files, multerFileFilter f = false ∨ maxFileSize < f.size) →
        ∃ e, uploadEndpoint files = .multerError e)
    ∧ (∀ fs, multerMiddleware files = .ok fs →
        ∀ f ∈ fs, isAllowedImageFile f = true) := by
  refine ⟨?_, ?_, ?_⟩
  · intro h
    have hall : ∀ f ∈ files, isAllowedImageFile f = true := by
      intro f hf
      rcases h f hf with ⟨hmf, hsz⟩
      rcases (multerFileFilter_iff f).mp hmf with ⟨hne, hm, hext⟩
      exact (isAllowedImageFile_iff f).mpr ⟨hext, Or.inr hm, hsz⟩
    have hmm : multerMiddleware files = .ok files := by
      unfold multerMiddleware
      rw [if_neg (by omega),
        if_neg (not_not.mpr (List.all_eq_true.mpr (fun f hf => (h f hf).1))),
        if_neg (not_not.mpr (List.all_eq_true.mpr
          (fun f hf => by simpa using (h f hf).2)))]
    have himg : uploadImage files
        = .success (files.map (fun f => sanitizeFilename f.originalname)) none := by
      have hfve : files.filter isAllowedImageFile = files :=
        List.filter_eq_self.mpr hall
      have hfie : files.filter (fun f => ! isAllowedImageFile f) = [] :=
        List.filter_eq_nil_iff.mpr (fun f hf => by simp [hall f hf])
      simp [uploadImage, hfve, hfie]
    simp only [uploadEndpoint, hmm, himg]
  · intro hex
    by_cases hc : maxFiles < files.length
    · refine ⟨.limitFileCount, ?_⟩
      simp only [uploadEndpoint, multerMiddleware]
      rw [if_pos hc]
    · by_cases hf : files.all multerFileFilter
      · have hsz : ¬ files.all (fun f => decide (f.size ≤ maxFileSize)) = true := by
          rcases hex with ⟨f, hfmem, hbad⟩
          rcases hbad with hmf | hsize
          · have := List.all_eq_true.mp hf f hfmem
            rw [hmf] at this
            cases this
          · intro hallsz
            have := List.all_eq_true.mp hallsz f hfmem
            simp at this
            omega
        refine ⟨.limitFileSize, ?_⟩
        simp only [uploadEndpoint, multerMiddleware]
        rw [if_neg hc, if_neg (not_not.mpr hf), if_pos hsz]
      · refine ⟨.invalidFileType, ?_⟩
        simp only [uploadEndpoint, multerMiddleware]
        rw [if_neg hc, if_pos hf]
  · intro fs hok f hf
    unfold multerMiddleware at hok
    split_ifs at hok with hc hflt hsz
    · cases hok
      rcases (multerFileFilter_iff f).mp (List.all_eq_true.mp hflt f hf)
        with ⟨hne, hm, hext⟩
      have hsize : f.size ≤ maxFileSize := by
        have := List.all_eq_true.mp hsz f hf
        simpa using this
      exact (isAllowedImageFile_iff f).mpr ⟨hext, Or.inr hm, hsize⟩

/-- C9 (witness): a request of two valid JPEGs passes the middleware and
is answered 200 with two uploads and no warnings. -/
theorem uploadEndpoint_response_spec_witness :
    ([validJpg "a.jpg", validJpg "b.jpg"] : List UploadFile).length ≤ maxFiles
    ∧ uploadEndpoint [validJpg "a.jpg", validJpg "b.jpg"]
        = .ok200 (([validJpg "a.jpg", validJpg "b.jpg"] : List UploadFile).map
            (fun f => sanitizeFilename f.originalname)) none :=
  ⟨by decide,
    (uploadEndpoint_response_spec [validJpg "a.jpg", validJpg "b.jpg"]
      (by decide)).1 (by decide)⟩

/-- C10 (code bug): `sanitizeFilename` is meant to reduce a filename to
its base name with only path-traversal characters stripped, but its regex
character class `[\0\.\.\\/\\]` removes every dot as well: on the plain
base name `photo.jpg` it returns `photojpg`, while the spec's
sanitization returns `photo.jpg` unchanged. -/
theorem sanitizeFilename_strips_extension_dot :
    sanitizeFilename "photo.jpg" = "photojpg"
    ∧ sanitizeFilenameSpec "photo.jpg" = "photo.jpg"
    ∧ ("photojpg" : String) ≠ "photo.jpg" :=
  ⟨by decide, by decide, by decide⟩

end ProductReviewPlugin
